import Mathlib

/-!
Verification of the room/session state machine of a WebRTC-style signaling
server (`src/server.js`).  The server keeps a table of rooms (each with one
teacher — the spec's "publisher" — a set of students — the spec's
"subscribers" — and per-student offer records), plus a buffer of ICE
candidates whose owner has no resolvable room yet.  JavaScript objects are
modelled as insertion-ordered association lists, JavaScript `Set`s as
duplicate-free insertion-ordered lists, and each socket.io event handler as a
pure function from server state to server state plus emitted outbound events
and an optional acknowledgment value.
-/

namespace Signal

abbrev SocketId := String
abbrev RoomId := String
abbrev Payload := String

/-- Lookup in a JavaScript-object-style association list (first match). -/
def jsGet {κ ν : Type} [DecidableEq κ] : List (κ × ν) → κ → Option ν
  | [], _ => none
  | (a, b) :: rest, key => if a = key then some b else jsGet rest key

/-- Assignment `obj[key] = val`: replace in place if the key is present,
append at the end otherwise (JavaScript property-insertion order). -/
def jsSet {κ ν : Type} [DecidableEq κ] : List (κ × ν) → κ → ν → List (κ × ν)
  | [], key, val => [(key, val)]
  | (a, b) :: rest, key, val =>
    if a = key then (key, val) :: rest else (a, b) :: jsSet rest key val

/-- `delete obj[key]`: remove the key. -/
def jsDelete {κ ν : Type} [DecidableEq κ] : List (κ × ν) → κ → List (κ × ν)
  | [], _ => []
  | (a, b) :: rest, key =>
    if a = key then jsDelete rest key else (a, b) :: jsDelete rest key

/-- `Object.values(obj)` in insertion order. -/
def jsValues {κ ν : Type} (m : List (κ × ν)) : List ν := m.map Prod.snd

/-- `Set.add`: insertion-ordered, no duplicates. -/
def setAdd (l : List SocketId) (x : SocketId) : List SocketId :=
  if x ∈ l then l else l ++ [x]

/-- One per-student offer record:
`{ offererSocketId, offer, answer, candidates: [] }`. -/
structure OfferEntry where
  offererSocketId : SocketId
  offer : Option Payload
  answer : Option Payload
  candidates : List Payload
deriving DecidableEq, Repr

/-- One buffered ICE candidate: `{ fromSocketId, candidate }`. -/
structure PendingItem where
  fromSocketId : SocketId
  candidate : Payload
deriving DecidableEq, Repr

/-- One room: `{ teacherId, students: Set, offers: {...} }`. -/
structure Room where
  teacherId : SocketId
  students : List SocketId
  offers : List (SocketId × OfferEntry)
deriving DecidableEq, Repr

/-- The server's whole mutable state: the `rooms` object and the
`pendingCandidates` buffer. -/
structure ServerState where
  rooms : List (RoomId × Room)
  pendingCandidates : List (SocketId × List PendingItem)
deriving DecidableEq, Repr

/-- Outbound emissions.  A broadcast `io.to(roomId).emit(...)` is recorded
with the list of sockets joined to that room channel at emission time
(the room's teacher and its students); a direct `io.to(sid).emit(...)` or
`socket.emit(...)` with the singleton target list. -/
inductive OutEvent where
  | roomClosed (targets : List SocketId) (reason : String)
  | availableOffers (target : SocketId) (entries : List OfferEntry)
  | newOfferAwaiting (target : SocketId) (entries : List OfferEntry)
  | answerResponse (target : SocketId) (entry : OfferEntry)
  | receivedIceCandidate (target : SocketId) (fromSocketId : SocketId) (candidate : Payload)
deriving DecidableEq, Repr

/-- Value passed to an `ack` callback, when the handler invokes one. -/
inductive Ack where
  | ok (offerId : SocketId)
  | ignored (reason : String)
  | candidates (cs : List Payload)
deriving DecidableEq, Repr

/-- The empty record created for a student before any offer arrives. -/
def emptyEntryFor (sock : SocketId) : OfferEntry :=
  { offererSocketId := sock, offer := none, answer := none, candidates := [] }

/-- Append a buffered pending list's candidates, in buffer order, to a
record's candidate sequence (`entry.candidates.push(...pending.map(p => p.candidate))`). -/
def flushPendingInto (entry : OfferEntry) (plist : List PendingItem) : OfferEntry :=
  { entry with candidates := entry.candidates ++ plist.map PendingItem.candidate }

/-- Helper `findRoomForStudent`: first room whose student set contains the id. -/
def findRoomForStudent : List (RoomId × Room) → SocketId → Option RoomId
  | [], _ => none
  | (rid, room) :: rest, sid =>
    if sid ∈ room.students then some rid else findRoomForStudent rest sid

/-- Helper `findRoomForTeacher`: first room whose teacher is the id. -/
def findRoomForTeacher : List (RoomId × Room) → SocketId → Option RoomId
  | [], _ => none
  | (rid, room) :: rest, sid =>
    if room.teacherId = sid then some rid else findRoomForTeacher rest sid

/-- Helper `findRoomForSocketPair`: first room in which one of the two ids
matches the teacher and one of the two ids is a student. -/
def findRoomForSocketPair : List (RoomId × Room) → SocketId → SocketId → Option RoomId
  | [], _, _ => none
  | (rid, room) :: rest, a, b =>
    if (room.teacherId = a ∨ room.teacherId = b) ∧ (a ∈ room.students ∨ b ∈ room.students)
    then some rid else findRoomForSocketPair rest a b

/-- `createRoom` handler.  A missing (or empty, hence falsy) `roomId` is
only logged; an absent room is created with the caller as teacher; an
existing room has its teacher overwritten and its current offer records
re-announced to the caller. -/
def createRoom (sock : SocketId) (roomId : Option RoomId) (s : ServerState) :
    ServerState × List OutEvent :=
  match roomId with
  | none => (s, [])
  | some rid =>
    if rid = "" then (s, [])
    else
      match jsGet s.rooms rid with
      | none =>
        ({ s with rooms := jsSet s.rooms rid { teacherId := sock, students := [], offers := [] } },
         [])
      | some room =>
        let room2 := { room with teacherId := sock }
        ({ s with rooms := jsSet s.rooms rid room2 },
         [OutEvent.availableOffers sock (jsValues room2.offers)])

/-- `joinRoom` handler.  Missing roomId and missing room are rejected with a
`roomClosed` emission to the caller; otherwise the caller is added to the
student set, an empty record is ensured for it, any pending candidates are
flushed into that record, and the full record set is announced to the
teacher. -/
def joinRoom (sock : SocketId) (roomId : Option RoomId) (s : ServerState) :
    ServerState × List OutEvent :=
  match roomId with
  | none => (s, [OutEvent.roomClosed [sock] "RoomId missing"])
  | some rid =>
    if rid = "" then (s, [OutEvent.roomClosed [sock] "RoomId missing"])
    else
      match jsGet s.rooms rid with
      | none => (s, [OutEvent.roomClosed [sock] "Room not found"])
      | some room =>
        let room1 := { room with students := setAdd room.students sock }
        let base := (jsGet room1.offers sock).getD (emptyEntryFor sock)
        let r2 :=
          match jsGet s.pendingCandidates sock with
          | none => (base, s.pendingCandidates)
          | some plist => (flushPendingInto base plist, jsDelete s.pendingCandidates sock)
        let room2 := { room1 with offers := jsSet room1.offers sock r2.1 }
        let s2 : ServerState := { rooms := jsSet s.rooms rid room2, pendingCandidates := r2.2 }
        let outs := if room2.teacherId = "" then [] else
          [OutEvent.availableOffers room2.teacherId (jsValues room2.offers)]
        (s2, outs)

/-- `newOffer` handler.  A sender in no room gets an ignored ack (and an
empty pending-buffer entry is ensured for it); otherwise its record is
created or updated with the new offer, pending candidates are flushed into
it, the teacher is notified of the single record, and an ok ack is sent. -/
def newOffer (sock : SocketId) (offer : Payload) (s : ServerState) :
    ServerState × List OutEvent × Option Ack :=
  match findRoomForStudent s.rooms sock with
  | none =>
    let pending2 :=
      match jsGet s.pendingCandidates sock with
      | some _ => s.pendingCandidates
      | none => jsSet s.pendingCandidates sock []
    ({ s with pendingCandidates := pending2 }, [], some (Ack.ignored "not in room"))
  | some rid =>
    match jsGet s.rooms rid with
    | none => (s, [], none)
    | some room =>
      let base := (jsGet room.offers sock).getD (emptyEntryFor sock)
      let entry1 := { base with offer := some offer }
      let r2 :=
        match jsGet s.pendingCandidates sock with
        | none => (entry1, s.pendingCandidates)
        | some plist => (flushPendingInto entry1 plist, jsDelete s.pendingCandidates sock)
      let room2 := { room with offers := jsSet room.offers sock r2.1 }
      let outs := if room2.teacherId = "" then [] else
        [OutEvent.newOfferAwaiting room2.teacherId [r2.1]]
      ({ rooms := jsSet s.rooms rid room2, pendingCandidates := r2.2 }, outs,
       some (Ack.ok sock))

/-- `newAnswer` handler.  The sender must be a teacher of some room and the
target student must have a record there; then the answer is stored, the
updated record snapshot is forwarded to the student, and the record's
candidate list is acknowledged to the teacher. -/
def newAnswer (sock : SocketId) (offererSocketId : SocketId) (answer : Payload)
    (s : ServerState) : ServerState × List OutEvent × Option Ack :=
  match findRoomForTeacher s.rooms sock with
  | none => (s, [], some (Ack.ignored "teacher not in a room"))
  | some rid =>
    match jsGet s.rooms rid with
    | none => (s, [], none)
    | some room =>
      match jsGet room.offers offererSocketId with
      | none => (s, [], some (Ack.ignored "student not found"))
      | some entry =>
        let entry1 := { entry with answer := some answer }
        let room1 := { room with offers := jsSet room.offers offererSocketId entry1 }
        ({ s with rooms := jsSet s.rooms rid room1 },
         [OutEvent.answerResponse offererSocketId entry1],
         some (Ack.candidates entry1.candidates))

/-- `sendIceCandidateToSignalingServer` handler.  If no room is resolvable
for the sender/owner pair the candidate is buffered; otherwise it is
appended to the owner's record (created if absent) and forwarded to the
other side (teacher if the owner sent it, the owner otherwise). -/
def sendIceCandidateToSignalingServer (offererSocketId : SocketId) (candidate : Payload)
    (fromSocketId : SocketId) (s : ServerState) : ServerState × List OutEvent :=
  match findRoomForSocketPair s.rooms fromSocketId offererSocketId with
  | none =>
    let old := (jsGet s.pendingCandidates offererSocketId).getD []
    let item : PendingItem := { fromSocketId := fromSocketId, candidate := candidate }
    let pending2 := jsSet s.pendingCandidates offererSocketId (old ++ [item])
    ({ s with pendingCandidates := pending2 }, [])
  | some rid =>
    match jsGet s.rooms rid with
    | none => (s, [])
    | some room =>
      let base := (jsGet room.offers offererSocketId).getD (emptyEntryFor offererSocketId)
      let entry1 := { base with candidates := base.candidates ++ [candidate] }
      let room1 := { room with offers := jsSet room.offers offererSocketId entry1 }
      let s1 : ServerState := { s with rooms := jsSet s.rooms rid room1 }
      let outs :=
        if fromSocketId = offererSocketId then
          if room1.teacherId = "" then []
          else [OutEvent.receivedIceCandidate room1.teacherId fromSocketId candidate]
        else [OutEvent.receivedIceCandidate offererSocketId fromSocketId candidate]
      (s1, outs)

/-- A student entry with the disconnecting socket removed from the student
set and its record deleted. -/
def removeStudentEntry (sock : SocketId) (room : Room) : Room :=
  { room with students := room.students.filter (fun x => decide (x ≠ sock)),
              offers := jsDelete room.offers sock }

/-- The per-room loop of the `disconnect` handler, over a snapshot of the
room table: a room whose teacher disconnected is closed (broadcast to its
channel members, then deleted); a room in which the socket is a student
keeps running with the student and its record removed and the remaining
records announced to the teacher. -/
def disconnectRooms (sock : SocketId) :
    List (RoomId × Room) → List (RoomId × Room) × List OutEvent
  | [] => ([], [])
  | (rid, room) :: rest =>
    let r := disconnectRooms sock rest
    if room.teacherId = sock then
      (r.1, OutEvent.roomClosed (room.teacherId :: room.students) "Teacher disconnected" :: r.2)
    else if sock ∈ room.students then
      ((rid, removeStudentEntry sock room) :: r.1,
       OutEvent.availableOffers room.teacherId
         (jsValues (removeStudentEntry sock room).offers) :: r.2)
    else ((rid, room) :: r.1, r.2)

/-- `disconnect` handler: drop the socket's pending-candidate entry, then
process every room. -/
def disconnect (sock : SocketId) (s : ServerState) : ServerState × List OutEvent :=
  let pending2 := jsDelete s.pendingCandidates sock
  let r := disconnectRooms sock s.rooms
  ({ rooms := r.1, pendingCandidates := pending2 }, r.2)

/-- Inbound protocol events (payload fields that may be absent are `Option`). -/
inductive Event where
  | createRoom (sock : SocketId) (roomId : Option RoomId)
  | joinRoom (sock : SocketId) (roomId : Option RoomId)
  | newOffer (sock : SocketId) (offer : Payload)
  | newAnswer (sock : SocketId) (offererSocketId : SocketId) (answer : Payload)
  | iceCandidate (offererSocketId : SocketId) (candidate : Payload) (fromSocketId : SocketId)
  | disconnect (sock : SocketId)
deriving DecidableEq, Repr

/-- Dispatch one inbound event to its handler. -/
def step (s : ServerState) (e : Event) : ServerState × List OutEvent × Option Ack :=
  match e with
  | Event.createRoom sock roomId =>
    let r := createRoom sock roomId s
    (r.1, r.2, none)
  | Event.joinRoom sock roomId =>
    let r := joinRoom sock roomId s
    (r.1, r.2, none)
  | Event.newOffer sock offer => newOffer sock offer s
  | Event.newAnswer sock tgt a => newAnswer sock tgt a s
  | Event.iceCandidate off cand src =>
    let r := sendIceCandidateToSignalingServer off cand src s
    (r.1, r.2, none)
  | Event.disconnect sock =>
    let r := disconnect sock s
    (r.1, r.2, none)

/-- Run a sequence of inbound events. -/
def run (s : ServerState) (es : List Event) : ServerState :=
  es.foldl (fun acc e => (step acc e).1) s

/-- The record stored for `owner` in room `rid`, if both exist. -/
def recordIn (s : ServerState) (rid : RoomId) (owner : SocketId) : Option OfferEntry :=
  match jsGet s.rooms rid with
  | none => none
  | some room => jsGet room.offers owner

/-- The ICE candidates addressed to `owner` in a trace, in arrival order. -/
def iceArrivalsFor (owner : SocketId) (es : List Event) : List Payload :=
  es.filterMap (fun e =>
    match e with
    | Event.iceCandidate off cand _ => if off = owner then some cand else none
    | _ => none)

/-- The state at process start: no rooms, no pending candidates. -/
def initState : ServerState := { rooms := [], pendingCandidates := [] }

/-- The record stored for `owner` in room `rid` of a room table. -/
def recordInRooms (rs : List (RoomId × Room)) (rid : RoomId) (owner : SocketId) :
    Option OfferEntry :=
  match jsGet rs rid with
  | none => none
  | some room => jsGet room.offers owner

/-- One offer table extends another when every record present in both has
only gained candidates, at the end of its sequence. -/
def offersExtend (o1 o2 : List (SocketId × OfferEntry)) : Prop :=
  ∀ k e1 e2, jsGet o1 k = some e1 → jsGet o2 k = some e2 →
    ∃ t, e2.candidates = e1.candidates ++ t

/-- A demonstration trace: a teacher creates a room and a student joins. -/
def demoTrace : List Event :=
  [Event.createRoom "T" (some "R"), Event.joinRoom "S1" (some "R")]

/-- The state reached by `demoTrace`. -/
def demoState : ServerState := run initState demoTrace

/-- The room reached by `demoTrace`. -/
def demoRoom : Room :=
  { teacherId := "T", students := ["S1"], offers := [("S1", emptyEntryFor "S1")] }

/-- A trace in which a candidate for "O" is buffered, "O" then becomes
teacher of a room with a student, and a further candidate for "O" creates
"O"'s record through the candidate-relay path. -/
def c2Trace : List Event :=
  [Event.iceCandidate "O" "c1" "O", Event.createRoom "O" (some "R"),
   Event.joinRoom "S" (some "R"), Event.iceCandidate "O" "c2" "S"]

/-- A trace in which student "O"'s own candidate "c1" is buffered (its
sender matches no teacher), the teacher's candidate "c2" is appended
directly, and "O"'s subsequent offer flushes "c1" after "c2". -/
def c3Trace : List Event :=
  [Event.createRoom "T" (some "R"), Event.joinRoom "O" (some "R"),
   Event.iceCandidate "O" "c1" "O", Event.iceCandidate "O" "c2" "T",
   Event.newOffer "O" "o1"]

/-- A trace in which "A" creates a room and then joins it as a student,
becoming both its teacher and a student. -/
def c8Trace : List Event :=
  [Event.createRoom "A" (some "R"), Event.joinRoom "A" (some "R")]

/-- The room table reached by `c8Trace`. -/
def c8Rooms : List (RoomId × Room) := (run initState c8Trace).rooms

/-- The room reached by `c8Trace`. -/
def c8Room : Room :=
  { teacherId := "A", students := ["A"], offers := [("A", emptyEntryFor "A")] }

/-- `demoTrace` extended so that student "S1" has a buffered candidate. -/
def pendingTrace : List Event := demoTrace ++ [Event.iceCandidate "S1" "c1" "S1"]

/-- The state reached by `pendingTrace`: its pending buffer maps "S1" to
one candidate. -/
def pendingState : ServerState := run initState pendingTrace

theorem jsGet_jsSet_self {κ ν : Type} [DecidableEq κ] (m : List (κ × ν)) (k : κ) (v : ν) :
    jsGet (jsSet m k v) k = some v := by
  induction m with
  | nil => simp [jsGet, jsSet]
  | cons p rest ih =>
    obtain ⟨a, b⟩ := p
    by_cases h : a = k
    · simp [jsGet, jsSet, h]
    · simp [jsGet, jsSet, h, ih]

theorem jsGet_jsSet_ne {κ ν : Type} [DecidableEq κ] (m : List (κ × ν)) (k k' : κ) (v : ν)
    (h : k ≠ k') : jsGet (jsSet m k v) k' = jsGet m k' := by
  induction m with
  | nil => simp [jsGet, jsSet, h]
  | cons p rest ih =>
    obtain ⟨a, b⟩ := p
    by_cases ha : a = k
    · subst ha
      simp [jsGet, jsSet, h]
    · simp [jsGet, jsSet, ha, ih]

theorem jsGet_jsDelete_self {κ ν : Type} [DecidableEq κ] (m : List (κ × ν)) (k : κ) :
    jsGet (jsDelete m k) k = none := by
  induction m with
  | nil => simp [jsGet, jsDelete]
  | cons p rest ih =>
    obtain ⟨a, b⟩ := p
    by_cases h : a = k
    · simp [jsDelete, h, ih]
    · simp [jsGet, jsDelete, h, ih]

theorem jsGet_jsDelete_ne {κ ν : Type} [DecidableEq κ] (m : List (κ × ν)) (k k' : κ)
    (h : k ≠ k') : jsGet (jsDelete m k) k' = jsGet m k' := by
  induction m with
  | nil => simp [jsGet, jsDelete]
  | cons p rest ih =>
    obtain ⟨a, b⟩ := p
    by_cases ha : a = k
    · subst ha
      simp [jsGet, jsDelete, h, Ne.symm h, ih]
    · simp [jsGet, jsDelete, ha, ih]

theorem jsDelete_idem {κ ν : Type} [DecidableEq κ] (m : List (κ × ν)) (k : κ) :
    jsDelete (jsDelete m k) k = jsDelete m k := by
  induction m with
  | nil => simp [jsDelete]
  | cons p rest ih =>
    obtain ⟨a, b⟩ := p
    by_cases h : a = k
    · simp [jsDelete, h, ih]
    · simp [jsDelete, h, ih]

theorem jsGet_mem {κ ν : Type} [DecidableEq κ] (m : List (κ × ν)) (k : κ) (v : ν)
    (h : jsGet m k = some v) : (k, v) ∈ m := by
  induction m with
  | nil => simp [jsGet] at h
  | cons p rest ih =>
    obtain ⟨a, b⟩ := p
    by_cases ha : a = k
    · subst ha
      simp [jsGet] at h
      simp [h]
    · simp [jsGet, ha] at h
      exact List.mem_cons_of_mem _ (ih h)

theorem jsGet_eq_none_of_not_mem_keys {κ ν : Type} [DecidableEq κ]
    (m : List (κ × ν)) (k : κ) (h : k ∉ m.map Prod.fst) : jsGet m k = none := by
  induction m with
  | nil => simp [jsGet]
  | cons p rest ih =>
    obtain ⟨a, b⟩ := p
    have h1 : a ≠ k := by
      intro hak
      exact h (by simp [hak])
    have h2 : k ∉ rest.map Prod.fst := by
      intro hk
      exact h (by simp [hk])
    simp [jsGet, h1, ih h2]

/-- Claim C1: claiming an already-active room reassigns its teacher (publisher)
slot to the caller, leaves the student (subscriber) set, every offer record,
and the pending buffer untouched, and re-announces the full record set to
the caller. -/
theorem createRoom_reclaim_spec (sock : SocketId) (rid : RoomId) (room : Room)
    (s : ServerState) (hrid : rid ≠ "") (hR : jsGet s.rooms rid = some room) :
    createRoom sock (some rid) s =
      ({ s with rooms := jsSet s.rooms rid { room with teacherId := sock } },
       [OutEvent.availableOffers sock (jsValues room.offers)]) := by
  simp [createRoom, hrid, hR]

/-- Witness for C1: reclaiming the demonstration room. -/
theorem createRoom_reclaim_spec_witness :
    createRoom "T2" (some "R") demoState =
      ({ demoState with rooms := jsSet demoState.rooms "R" { demoRoom with teacherId := "T2" } },
       [OutEvent.availableOffers "T2" (jsValues demoRoom.offers)]) :=
  createRoom_reclaim_spec "T2" "R" demoRoom demoState (by decide) (by decide)

/-- Claim C5: a further offer from a student that already has a record overwrites
only the `offer` field; the `answer` field is unchanged and the previous
candidate sequence is preserved in order (extended only by the flush of any
candidates buffered for the student, appended after it). -/
theorem newOffer_preserves_record (sock : SocketId) (o : Payload) (rid : RoomId)
    (room : Room) (entry : OfferEntry) (s : ServerState)
    (hS : findRoomForStudent s.rooms sock = some rid)
    (hR : jsGet s.rooms rid = some room)
    (hE : jsGet room.offers sock = some entry) :
    recordInRooms (newOffer sock o s).1.rooms rid sock =
      some { offererSocketId := entry.offererSocketId, offer := some o,
             answer := entry.answer,
             candidates := entry.candidates ++
               ((jsGet s.pendingCandidates sock).getD []).map PendingItem.candidate } := by
  cases hP : jsGet s.pendingCandidates sock with
  | none =>
    simp [newOffer, hS, hR, hE, hP, recordInRooms, jsGet_jsSet_self]
  | some plist =>
    simp [newOffer, hS, hR, hE, hP, recordInRooms, jsGet_jsSet_self, flushPendingInto]

/-- Witness for C5: a first offer after the demonstration join. -/
theorem newOffer_preserves_record_witness :
    recordInRooms (newOffer "S1" "o1" demoState).1.rooms "R" "S1" =
      some { offererSocketId := "S1", offer := some "o1", answer := none,
             candidates := [] ++
               ((jsGet demoState.pendingCandidates "S1").getD []).map PendingItem.candidate } :=
  newOffer_preserves_record "S1" "o1" "R" demoRoom (emptyEntryFor "S1") demoState
    (by decide) (by decide) (by decide)

/-- Claim C6: for a teacher (publisher) resolved to a room, `newAnswer` fails with
a structured ignored acknowledgment and leaves all state unchanged exactly
when the target student has no record there; otherwise it stores the answer,
forwards the updated record snapshot to the student, and acknowledges the
teacher with the record's current candidate list. -/
theorem newAnswer_spec (sock : SocketId) (tgt : SocketId) (a : Payload) (rid : RoomId)
    (room : Room) (s : ServerState)
    (hT : findRoomForTeacher s.rooms sock = some rid)
    (hR : jsGet s.rooms rid = some room) :
    (jsGet room.offers tgt = none →
      newAnswer sock tgt a s = (s, [], some (Ack.ignored "student not found")))
    ∧ (∀ entry, jsGet room.offers tgt = some entry →
      newAnswer sock tgt a s =
        ({ s with rooms := jsSet s.rooms rid { room with offers := jsSet room.offers tgt { entry with answer := some a } } },
         [OutEvent.answerResponse tgt { entry with answer := some a }],
         some (Ack.candidates entry.candidates))) := by
  constructor
  · intro hE
    simp [newAnswer, hT, hR, hE]
  · intro entry hE
    simp [newAnswer, hT, hR, hE]

/-- Witness for C6: answering an unknown student in the demonstration room
is rejected with an ignored acknowledgment and changes nothing. -/
theorem newAnswer_spec_witness :
    newAnswer "T" "S2" "a1" demoState =
      (demoState, [], some (Ack.ignored "student not found")) :=
  (newAnswer_spec "T" "S2" "a1" "R" demoRoom demoState (by decide) (by decide)).1 (by decide)

/-- Counterexample for C9: a `create` event with a missing `roomId` is
silently discarded — the state is unchanged but no rejection event and no
acknowledgment reaches the caller. -/
theorem createRoom_missing_roomId_silent :
    step initState (Event.createRoom "A" none) = (initState, [], none) := by
  decide

/-- Claim C9 (amended): a `join` event missing its `roomId` is rejected with an
explicit `roomClosed` emission to the caller and leaves the state unchanged;
a `create` event missing its `roomId` also leaves the state unchanged but is
only logged — no rejection event or acknowledgment is emitted. -/
theorem missing_roomId_handling (sock : SocketId) (s : ServerState) :
    step s (Event.joinRoom sock none) =
      (s, [OutEvent.roomClosed [sock] "RoomId missing"], none)
    ∧ step s (Event.createRoom sock none) = (s, [], none) := by
  constructor <;> rfl

/-- Claim C10: processing a socket's disconnect always removes its pending
candidate buffer entry, whether or not the socket is a teacher or student
of any room. -/
theorem disconnect_clears_pendingCandidates (sock : SocketId) (s : ServerState) :
    jsGet (disconnect sock s).1.pendingCandidates sock = none := by
  simp [disconnect, jsGet_jsDelete_self]

/-- Counterexample for C2: after `c2Trace`, a record for "O" exists in room
"R" (created through the candidate-relay path), yet "O"'s pending buffer
entry still holds the earlier candidate "c1", which was never appended. -/
theorem pending_flush_gap_cex :
    jsGet (run initState c2Trace).pendingCandidates "O" =
      some [{ fromSocketId := "O", candidate := "c1" }]
    ∧ recordInRooms (run initState c2Trace).rooms "R" "O" =
      some { offererSocketId := "O", offer := none, answer := none, candidates := ["c2"] } := by
  constructor <;> rfl

/-- Claim C2 (amended): when a socket with a non-empty pending buffer entry joins
a room, or sends an offer while a student of a room, the buffered candidates
are appended to its record in arrival order and the buffer entry is removed;
record creation through the candidate-relay path performs no such flush. -/
theorem pending_flush_on_join_and_offer (sock : SocketId) (s : ServerState)
    (plist : List PendingItem)
    (hP : jsGet s.pendingCandidates sock = some plist) :
    (∀ rid room, rid ≠ "" → jsGet s.rooms rid = some room →
      jsGet (joinRoom sock (some rid) s).1.pendingCandidates sock = none
      ∧ recordInRooms (joinRoom sock (some rid) s).1.rooms rid sock =
          some (flushPendingInto ((jsGet room.offers sock).getD (emptyEntryFor sock)) plist))
    ∧ (∀ o rid room, findRoomForStudent s.rooms sock = some rid →
      jsGet s.rooms rid = some room →
      jsGet (newOffer sock o s).1.pendingCandidates sock = none
      ∧ recordInRooms (newOffer sock o s).1.rooms rid sock =
          some (flushPendingInto { (jsGet room.offers sock).getD (emptyEntryFor sock) with offer := some o } plist)) := by
  constructor
  · intro rid room hrid hR
    constructor
    · simp [joinRoom, hrid, hR, hP, jsGet_jsDelete_self]
    · simp [joinRoom, hrid, hR, hP, recordInRooms, jsGet_jsSet_self]
  · intro o rid room hS hR
    constructor
    · simp [newOffer, hS, hR, hP, jsGet_jsDelete_self]
    · simp [newOffer, hS, hR, hP, recordInRooms, jsGet_jsSet_self]

/-- Witness for C2 (amended): student "S1" has one buffered candidate in
`pendingState`; re-joining the room flushes it into the record and clears
the buffer entry. -/
theorem pending_flush_on_join_and_offer_witness :
    jsGet (joinRoom "S1" (some "R") pendingState).1.pendingCandidates "S1" = none
    ∧ recordInRooms (joinRoom "S1" (some "R") pendingState).1.rooms "R" "S1" =
        some (flushPendingInto ((jsGet demoRoom.offers "S1").getD (emptyEntryFor "S1"))
          [{ fromSocketId := "S1", candidate := "c1" }]) :=
  (pending_flush_on_join_and_offer "S1" pendingState
      [{ fromSocketId := "S1", candidate := "c1" }] (by decide)).1
    "R" demoRoom (by decide) (by decide)

/-- Counterexample for C3: in `c3Trace` the candidates addressed to "O"
arrive in the order `["c1", "c2"]`, but "O"'s final record stores them as
`["c2", "c1"]` — the buffered-then-flushed candidate lands after a direct
one that arrived later. -/
theorem candidate_order_cex :
    iceArrivalsFor "O" c3Trace = ["c1", "c2"]
    ∧ recordInRooms (run initState c3Trace).rooms "R" "O" =
      some { offererSocketId := "O", offer := some "o1", answer := none,
             candidates := ["c2", "c1"] } := by
  constructor <;> rfl

/-- Counterexample for C8: after `c8Trace`, socket "A" is both teacher and
student of room "R", so the pair "A"/"B" resolves to "R" even though "B" is
neither its teacher nor one of its students. -/
theorem pair_resolution_cex :
    findRoomForSocketPair c8Rooms "A" "B" = some "R"
    ∧ jsGet c8Rooms "R" = some c8Room
    ∧ c8Room.teacherId ≠ "B"
    ∧ "B" ∉ c8Room.students := by
  refine ⟨rfl, rfl, ?_, ?_⟩ <;> decide

theorem disconnectRooms_clean (sock : SocketId) (rooms : List (RoomId × Room)) :
    ∀ p ∈ (disconnectRooms sock rooms).1, p.2.teacherId ≠ sock ∧ sock ∉ p.2.students := by
  induction rooms with
  | nil => simp [disconnectRooms]
  | cons q rest ih =>
    obtain ⟨rid, room⟩ := q
    by_cases h1 : room.teacherId = sock
    · simpa [disconnectRooms, h1] using ih
    · by_cases h2 : sock ∈ room.students
      · intro p hp
        simp only [disconnectRooms, h1, h2, if_true, if_false, List.mem_cons] at hp
        rcases hp with hp | hp
        · subst hp
          refine ⟨h1, ?_⟩
          simp [removeStudentEntry, List.mem_filter]
        · exact ih p hp
      · intro p hp
        simp only [disconnectRooms, h1, h2, if_false, List.mem_cons] at hp
        rcases hp with hp | hp
        · subst hp
          exact ⟨h1, h2⟩
        · exact ih p hp

theorem disconnectRooms_noop (sock : SocketId) (rooms : List (RoomId × Room))
    (h : ∀ p ∈ rooms, p.2.teacherId ≠ sock ∧ sock ∉ p.2.students) :
    disconnectRooms sock rooms = (rooms, []) := by
  induction rooms with
  | nil => rfl
  | cons q rest ih =>
    obtain ⟨rid, room⟩ := q
    have hq := h (rid, room) (by simp)
    have hrest : ∀ p ∈ rest, p.2.teacherId ≠ sock ∧ sock ∉ p.2.students :=
      fun p hp => h p (List.mem_cons_of_mem _ hp)
    simp [disconnectRooms, hq.1, hq.2, ih hrest]

/-- Claim C7: processing the same socket's disconnect twice leaves exactly the
state (room table, student sets, records, pending buffer) produced by
processing it once. -/
theorem disconnect_idempotent (sock : SocketId) (s : ServerState) :
    (disconnect sock (disconnect sock s).1).1 = (disconnect sock s).1 := by
  show ServerState.mk _ _ = ServerState.mk _ _
  simp only [disconnect]
  rw [disconnectRooms_noop sock _ (disconnectRooms_clean sock s.rooms),
    jsDelete_idem]

theorem disconnectRooms_absent (sock : SocketId) (rooms : List (RoomId × Room)) (rid : RoomId)
    (h : jsGet rooms rid = none) :
    jsGet (disconnectRooms sock rooms).1 rid = none := by
  induction rooms with
  | nil => simp [disconnectRooms, jsGet]
  | cons q rest ih =>
    obtain ⟨a, room⟩ := q
    by_cases ha : a = rid
    · subst ha
      simp [jsGet] at h
    · have h2 : jsGet rest rid = none := by simpa [jsGet, ha] using h
      by_cases h1 : room.teacherId = sock
      · simp [disconnectRooms, h1, ih h2]
      · by_cases hs : sock ∈ room.students
        · simp [disconnectRooms, h1, hs, jsGet, ha, ih h2]
        · simp [disconnectRooms, h1, hs, jsGet, ha, ih h2]

theorem disconnectRooms_lookup (sock : SocketId) (rooms : List (RoomId × Room))
    (rid : RoomId) (room : Room)
    (hnd : (rooms.map Prod.fst).Nodup)
    (h : jsGet rooms rid = some room) :
    jsGet (disconnectRooms sock rooms).1 rid =
      (if room.teacherId = sock then none
       else if sock ∈ room.students then some (removeStudentEntry sock room)
       else some room) := by
  induction rooms with
  | nil => simp [jsGet] at h
  | cons q rest ih =>
    obtain ⟨a, rm⟩ := q
    rw [List.map_cons, List.nodup_cons] at hnd
    obtain ⟨hna, hndr⟩ := hnd
    by_cases ha : a = rid
    · subst ha
      have hroom : rm = room := by simpa [jsGet] using h
      subst hroom
      have habs : jsGet (disconnectRooms sock rest).1 a = none :=
        disconnectRooms_absent sock rest a (jsGet_eq_none_of_not_mem_keys rest a hna)
      by_cases h1 : rm.teacherId = sock
      · simp [disconnectRooms, h1, habs]
      · by_cases hs : sock ∈ rm.students
        · simp [disconnectRooms, h1, hs, jsGet]
        · simp [disconnectRooms, h1, hs, jsGet]
    · have h2 : jsGet rest rid = some room := by simpa [jsGet, ha] using h
      by_cases h1 : rm.teacherId = sock
      · simp [disconnectRooms, h1, ih hndr h2]
      · by_cases hs : sock ∈ rm.students
        · simp [disconnectRooms, h1, hs, jsGet, ha, ih hndr h2]
        · simp [disconnectRooms, h1, hs, jsGet, ha, ih hndr h2]

theorem disconnectRooms_emits_close (sock : SocketId) (rooms : List (RoomId × Room))
    (rid : RoomId) (room : Room)
    (hmem : (rid, room) ∈ rooms) (ht : room.teacherId = sock) :
    OutEvent.roomClosed (room.teacherId :: room.students) "Teacher disconnected"
      ∈ (disconnectRooms sock rooms).2 := by
  induction rooms with
  | nil => simp at hmem
  | cons q rest ih =>
    obtain ⟨a, rm⟩ := q
    rcases List.mem_cons.mp hmem with heq | hmem2
    · cases heq
      simp [disconnectRooms, ht]
    · have hin := ih hmem2
      by_cases h1 : rm.teacherId = sock
      · simp only [disconnectRooms, if_pos h1]
        exact List.mem_cons_of_mem _ hin
      · by_cases hs : sock ∈ rm.students
        · simp only [disconnectRooms, if_neg h1, if_pos hs]
          exact List.mem_cons_of_mem _ hin
        · simpa [disconnectRooms, h1, hs] using hin

theorem step_preserves_room_absence (s : ServerState) (e : Event) (rid : RoomId)
    (h : jsGet s.rooms rid = none)
    (hne : ∀ c, e ≠ Event.createRoom c (some rid)) :
    jsGet (step s e).1.rooms rid = none := by
  cases e with
  | createRoom c ro =>
    cases ro with
    | none => simpa [step, createRoom] using h
    | some r =>
      have hr : r ≠ rid := by
        intro hrr
        exact hne c (by rw [hrr])
      by_cases hempty : r = ""
      · simpa [step, createRoom, hempty] using h
      · cases hg : jsGet s.rooms r with
        | none => simpa [step, createRoom, hempty, hg, jsGet_jsSet_ne _ r rid _ hr] using h
        | some room => simpa [step, createRoom, hempty, hg, jsGet_jsSet_ne _ r rid _ hr] using h
  | joinRoom c ro =>
    cases ro with
    | none => simpa [step, joinRoom] using h
    | some r =>
      by_cases hempty : r = ""
      · simpa [step, joinRoom, hempty] using h
      · cases hg : jsGet s.rooms r with
        | none => simpa [step, joinRoom, hempty, hg] using h
        | some room =>
          have hr : r ≠ rid := by
            intro hrr
            rw [hrr, h] at hg
            exact Option.noConfusion hg
          simpa [step, joinRoom, hempty, hg, jsGet_jsSet_ne _ r rid _ hr] using h
  | newOffer c o =>
    cases hf : findRoomForStudent s.rooms c with
    | none => simpa [step, newOffer, hf] using h
    | some r =>
      cases hg : jsGet s.rooms r with
      | none => simpa [step, newOffer, hf, hg] using h
      | some room =>
        have hr : r ≠ rid := by
          intro hrr
          rw [hrr, h] at hg
          exact Option.noConfusion hg
        simpa [step, newOffer, hf, hg, jsGet_jsSet_ne _ r rid _ hr] using h
  | newAnswer c tgt a =>
    cases hf : findRoomForTeacher s.rooms c with
    | none => simpa [step, newAnswer, hf] using h
    | some r =>
      cases hg : jsGet s.rooms r with
      | none => simpa [step, newAnswer, hf, hg] using h
      | some room =>
        cases hE : jsGet room.offers tgt with
        | none => simpa [step, newAnswer, hf, hg, hE] using h
        | some entry =>
          have hr : r ≠ rid := by
            intro hrr
            rw [hrr, h] at hg
            exact Option.noConfusion hg
          simpa [step, newAnswer, hf, hg, hE, jsGet_jsSet_ne _ r rid _ hr] using h
  | iceCandidate off cand src =>
    cases hf : findRoomForSocketPair s.rooms src off with
    | none => simpa [step, sendIceCandidateToSignalingServer, hf] using h
    | some r =>
      cases hg : jsGet s.rooms r with
      | none => simpa [step, sendIceCandidateToSignalingServer, hf, hg] using h
      | some room =>
        have hr : r ≠ rid := by
          intro hrr
          rw [hrr, h] at hg
          exact Option.noConfusion hg
        simpa [step, sendIceCandidateToSignalingServer, hf, hg,
          jsGet_jsSet_ne _ r rid _ hr] using h
  | disconnect c =>
    simpa [step, disconnect] using disconnectRooms_absent c s.rooms rid h

theorem run_preserves_room_absence (es : List Event) (s : ServerState) (rid : RoomId)
    (h : jsGet s.rooms rid = none)
    (hne : ∀ e ∈ es, ∀ c, e ≠ Event.createRoom c (some rid)) :
    jsGet (run s es).rooms rid = none := by
  induction es generalizing s with
  | nil => simpa [run] using h
  | cons e rest ih =>
    have h1 := step_preserves_room_absence s e rid h (hne e (List.mem_cons_self e rest))
    have hne2 : ∀ e' ∈ rest, ∀ c, e' ≠ Event.createRoom c (some rid) :=
      fun e' he' => hne e' (List.mem_cons_of_mem _ he')
    simpa [run] using ih (step s e).1 h1 hne2

theorem joinRoom_absent (sock : SocketId) (rid : RoomId) (s : ServerState)
    (hrid : rid ≠ "") (h : jsGet s.rooms rid = none) :
    joinRoom sock (some rid) s = (s, [OutEvent.roomClosed [sock] "Room not found"]) := by
  simp [joinRoom, hrid, h]

/-- Claim C4: when a room's teacher (publisher) disconnects, a `roomClosed`
broadcast with reason "Teacher disconnected" (the code's wording of
"publisher disconnected") goes to the room channel — the teacher and every
student — the room with all its records is deleted in the same step, and
every later `join` of that room id fails with the room-not-found rejection
as long as no `create` re-creates it. -/
theorem teacher_disconnect_closes_room (sock : SocketId) (rid : RoomId) (room : Room)
    (s : ServerState)
    (hnd : (s.rooms.map Prod.fst).Nodup)
    (hrid : rid ≠ "")
    (hR : jsGet s.rooms rid = some room)
    (hT : room.teacherId = sock) :
    OutEvent.roomClosed (room.teacherId :: room.students) "Teacher disconnected"
      ∈ (disconnect sock s).2
    ∧ jsGet (disconnect sock s).1.rooms rid = none
    ∧ ∀ sock2 es, (∀ e ∈ es, ∀ c, e ≠ Event.createRoom c (some rid)) →
        step (run (disconnect sock s).1 es) (Event.joinRoom sock2 (some rid)) =
          (run (disconnect sock s).1 es,
           [OutEvent.roomClosed [sock2] "Room not found"], none) := by
  have habs : jsGet (disconnect sock s).1.rooms rid = none := by
    have hlook := disconnectRooms_lookup sock s.rooms rid room hnd hR
    simp [disconnect, hlook, hT]
  refine ⟨?_, habs, ?_⟩
  · have hm := jsGet_mem s.rooms rid room hR
    simpa [disconnect] using disconnectRooms_emits_close sock s.rooms rid room hm hT
  · intro sock2 es hne
    have h2 := run_preserves_room_absence es (disconnect sock s).1 rid habs hne
    simp [step, joinRoom_absent sock2 rid _ hrid h2]

/-- Witness for C4: the demonstration teacher disconnecting. -/
theorem teacher_disconnect_closes_room_witness :
    OutEvent.roomClosed (demoRoom.teacherId :: demoRoom.students) "Teacher disconnected"
      ∈ (disconnect "T" demoState).2
    ∧ jsGet (disconnect "T" demoState).1.rooms "R" = none
    ∧ ∀ sock2 es, (∀ e ∈ es, ∀ c, e ≠ Event.createRoom c (some "R")) →
        step (run (disconnect "T" demoState).1 es) (Event.joinRoom sock2 (some "R")) =
          (run (disconnect "T" demoState).1 es,
           [OutEvent.roomClosed [sock2] "Room not found"], none) :=
  teacher_disconnect_closes_room "T" "R" demoRoom demoState
    (by decide) (by decide) (by decide) (by decide)

theorem offersExtend_refl (o : List (SocketId × OfferEntry)) : offersExtend o o := by
  intro k e1 e2 h1 h2
  rw [h1] at h2
  injection h2 with h3
  exact ⟨[], by simp [h3]⟩

theorem offersExtend_set (o : List (SocketId × OfferEntry)) (k : SocketId) (v : OfferEntry)
    (h : ∀ eA, jsGet o k = some eA → ∃ t, v.candidates = eA.candidates ++ t) :
    offersExtend o (jsSet o k v) := by
  intro k' e1 e2 h1 h2
  by_cases hk : k = k'
  · subst hk
    rw [jsGet_jsSet_self] at h2
    injection h2 with h3
    subst h3
    exact h e1 h1
  · rw [jsGet_jsSet_ne o k k' v hk, h1] at h2
    injection h2 with h3
    exact ⟨[], by simp [h3]⟩

theorem offersExtend_delete (o : List (SocketId × OfferEntry)) (k : SocketId) :
    offersExtend o (jsDelete o k) := by
  intro k' e1 e2 h1 h2
  by_cases hk : k = k'
  · subst hk
    rw [jsGet_jsDelete_self] at h2
    exact Option.noConfusion h2
  · rw [jsGet_jsDelete_ne o k k' hk, h1] at h2
    injection h2 with h3
    exact ⟨[], by simp [h3]⟩

theorem recordInRooms_extend_set (rs : List (RoomId × Room)) (rid' : RoomId) (room2 : Room)
    (hext : ∀ room1, jsGet rs rid' = some room1 → offersExtend room1.offers room2.offers) :
    ∀ rid owner e1 e2, recordInRooms rs rid owner = some e1 →
      recordInRooms (jsSet rs rid' room2) rid owner = some e2 →
      ∃ t, e2.candidates = e1.candidates ++ t := by
  intro rid owner e1 e2 h1 h2
  by_cases hr : rid' = rid
  · subst hr
    cases hg : jsGet rs rid' with
    | none => simp [recordInRooms, hg] at h1
    | some room1 =>
      simp only [recordInRooms, hg] at h1
      simp only [recordInRooms, jsGet_jsSet_self] at h2
      exact hext room1 hg owner e1 e2 h1 h2
  · cases hg : jsGet rs rid with
    | none => simp [recordInRooms, hg] at h1
    | some room =>
      simp only [recordInRooms, hg] at h1
      simp only [recordInRooms, jsGet_jsSet_ne rs rid' rid room2 hr, hg] at h2
      rw [h1] at h2
      injection h2 with h3
      exact ⟨[], by simp [h3]⟩

theorem recordInRooms_unchanged (rs : List (RoomId × Room)) (rid : RoomId)
    (owner : SocketId) (e1 e2 : OfferEntry)
    (h1 : recordInRooms rs rid owner = some e1)
    (h2 : recordInRooms rs rid owner = some e2) :
    ∃ t, e2.candidates = e1.candidates ++ t := by
  rw [h1] at h2
  injection h2 with h3
  exact ⟨[], by simp [h3]⟩

/-- Claim C3 (amended): record candidate sequences are append-only — any single
event that leaves a record in place only appends to its candidate sequence
(removal happens only with deletion of the whole record); direct candidates
append in arrival order and buffered candidates flush in buffer order, but a
flushed candidate lands after direct candidates that arrived later, so the
global arrival order across the two delivery paths is not preserved. -/
theorem candidates_extend_only (s : ServerState) (e : Event) (rid : RoomId)
    (owner : SocketId) (e1 e2 : OfferEntry)
    (hnd : (s.rooms.map Prod.fst).Nodup)
    (h1 : recordInRooms s.rooms rid owner = some e1)
    (h2 : recordInRooms (step s e).1.rooms rid owner = some e2) :
    ∃ t, e2.candidates = e1.candidates ++ t := by
  cases e with
  | createRoom c ro =>
    cases ro with
    | none => exact recordInRooms_unchanged s.rooms rid owner e1 e2 h1 (by simpa [step, createRoom] using h2)
    | some r =>
      by_cases hempty : r = ""
      · exact recordInRooms_unchanged s.rooms rid owner e1 e2 h1
          (by simpa [step, createRoom, hempty] using h2)
      · cases hg : jsGet s.rooms r with
        | none =>
          simp only [step, createRoom, hempty, if_neg hempty, hg] at h2
          refine recordInRooms_extend_set s.rooms r _ ?_ rid owner e1 e2 h1 h2
          intro room1 hr1
          rw [hg] at hr1
          exact Option.noConfusion hr1
        | some room =>
          simp only [step, createRoom, hempty, if_neg hempty, hg] at h2
          refine recordInRooms_extend_set s.rooms r _ ?_ rid owner e1 e2 h1 h2
          intro room1 hr1
          rw [hg] at hr1
          injection hr1 with h3
          subst h3
          exact offersExtend_refl _
  | joinRoom c ro =>
    cases ro with
    | none => exact recordInRooms_unchanged s.rooms rid owner e1 e2 h1 (by simpa [step, joinRoom] using h2)
    | some r =>
      by_cases hempty : r = ""
      · exact recordInRooms_unchanged s.rooms rid owner e1 e2 h1
          (by simpa [step, joinRoom, hempty] using h2)
      · cases hg : jsGet s.rooms r with
        | none =>
          exact recordInRooms_unchanged s.rooms rid owner e1 e2 h1
            (by simpa [step, joinRoom, hempty, hg] using h2)
        | some room =>
          cases hp : jsGet s.pendingCandidates c with
          | none =>
            simp only [step, joinRoom, if_neg hempty, hg, hp] at h2
            refine recordInRooms_extend_set s.rooms r _ ?_ rid owner e1 e2 h1 h2
            intro room1 hr1
            rw [hg] at hr1
            injection hr1 with h3
            subst h3
            apply offersExtend_set
            exact fun eA hA => ⟨[], by simp [hA]⟩
          | some plist =>
            simp only [step, joinRoom, if_neg hempty, hg, hp] at h2
            refine recordInRooms_extend_set s.rooms r _ ?_ rid owner e1 e2 h1 h2
            intro room1 hr1
            rw [hg] at hr1
            injection hr1 with h3
            subst h3
            apply offersExtend_set
            exact fun eA hA => ⟨plist.map PendingItem.candidate, by simp [hA, flushPendingInto]⟩
  | newOffer c o =>
    cases hf : findRoomForStudent s.rooms c with
    | none =>
      exact recordInRooms_unchanged s.rooms rid owner e1 e2 h1
        (by simpa [step, newOffer, hf] using h2)
    | some r =>
      cases hg : jsGet s.rooms r with
      | none =>
        exact recordInRooms_unchanged s.rooms rid owner e1 e2 h1
          (by simpa [step, newOffer, hf, hg] using h2)
      | some room =>
        cases hp : jsGet s.pendingCandidates c with
        | none =>
          simp only [step, newOffer, hf, hg, hp] at h2
          refine recordInRooms_extend_set s.rooms r _ ?_ rid owner e1 e2 h1 h2
          intro room1 hr1
          rw [hg] at hr1
          injection hr1 with h3
          subst h3
          apply offersExtend_set
          exact fun eA hA => ⟨[], by simp [hA]⟩
        | some plist =>
          simp only [step, newOffer, hf, hg, hp] at h2
          refine recordInRooms_extend_set s.rooms r _ ?_ rid owner e1 e2 h1 h2
          intro room1 hr1
          rw [hg] at hr1
          injection hr1 with h3
          subst h3
          apply offersExtend_set
          exact fun eA hA => ⟨plist.map PendingItem.candidate, by simp [hA, flushPendingInto]⟩
  | newAnswer c tgt a =>
    cases hf : findRoomForTeacher s.rooms c with
    | none =>
      exact recordInRooms_unchanged s.rooms rid owner e1 e2 h1
        (by simpa [step, newAnswer, hf] using h2)
    | some r =>
      cases hg : jsGet s.rooms r with
      | none =>
        exact recordInRooms_unchanged s.rooms rid owner e1 e2 h1
          (by simpa [step, newAnswer, hf, hg] using h2)
      | some room =>
        cases hE : jsGet room.offers tgt with
        | none =>
          exact recordInRooms_unchanged s.rooms rid owner e1 e2 h1
            (by simpa [step, newAnswer, hf, hg, hE] using h2)
        | some entry =>
          simp only [step, newAnswer, hf, hg, hE] at h2
          refine recordInRooms_extend_set s.rooms r _ ?_ rid owner e1 e2 h1 h2
          intro room1 hr1
          rw [hg] at hr1
          injection hr1 with h3
          subst h3
          apply offersExtend_set
          intro eA hA
          rw [hE] at hA
          injection hA with h4
          subst h4
          exact ⟨[], by simp⟩
  | iceCandidate off cand src =>
    cases hf : findRoomForSocketPair s.rooms src off with
    | none =>
      exact recordInRooms_unchanged s.rooms rid owner e1 e2 h1
        (by simpa [step, sendIceCandidateToSignalingServer, hf] using h2)
    | some r =>
      cases hg : jsGet s.rooms r with
      | none =>
        exact recordInRooms_unchanged s.rooms rid owner e1 e2 h1
          (by simpa [step, sendIceCandidateToSignalingServer, hf, hg] using h2)
      | some room =>
        simp only [step, sendIceCandidateToSignalingServer, hf, hg] at h2
        refine recordInRooms_extend_set s.rooms r _ ?_ rid owner e1 e2 h1 h2
        intro room1 hr1
        rw [hg] at hr1
        injection hr1 with h3
        subst h3
        apply offersExtend_set
        exact fun eA hA => ⟨[cand], by simp [hA]⟩
  | disconnect c =>
    cases hg : jsGet s.rooms rid with
    | none => simp [recordInRooms, hg] at h1
    | some room =>
      simp only [recordInRooms, hg] at h1
      have hlook := disconnectRooms_lookup c s.rooms rid room hnd hg
      by_cases h1' : room.teacherId = c
      · rw [if_pos h1'] at hlook
        simp [step, disconnect, recordInRooms, hlook] at h2
      · rw [if_neg h1'] at hlook
        by_cases hs : c ∈ room.students
        · rw [if_pos hs] at hlook
          simp only [step, disconnect, recordInRooms, hlook, removeStudentEntry] at h2
          exact offersExtend_delete room.offers c owner e1 e2 h1 h2
        · rw [if_neg hs] at hlook
          simp only [step, disconnect, recordInRooms, hlook] at h2
          rw [h1] at h2
          injection h2 with h3
          exact ⟨[], by simp [h3]⟩

/-- Witness for C3 (amended): a direct candidate relayed into the
demonstration room extends the record's candidate sequence. -/
theorem candidates_extend_only_witness :
    ((demoState.rooms.map Prod.fst).Nodup
     ∧ recordInRooms demoState.rooms "R" "S1" = some (emptyEntryFor "S1")
     ∧ recordInRooms (step demoState (Event.iceCandidate "S1" "c1" "T")).1.rooms "R" "S1" =
         some { offererSocketId := "S1", offer := none, answer := none, candidates := ["c1"] })
    ∧ ∃ t, ({ offererSocketId := "S1", offer := none, answer := none,
              candidates := ["c1"] } : OfferEntry).candidates =
             (emptyEntryFor "S1").candidates ++ t :=
  ⟨⟨by decide, by decide, by decide⟩,
   candidates_extend_only demoState (Event.iceCandidate "S1" "c1" "T") "R" "S1"
     (emptyEntryFor "S1")
     { offererSocketId := "S1", offer := none, answer := none, candidates := ["c1"] }
     (by decide) (by decide) (by decide)⟩

/-- Claim C8 (amended): `findRoomForSocketPair` resolves a room exactly when one
of the two ids matches the room's teacher and one of the two ids (possibly
the same one) is among its students; with distinct match conditions this is
publisher-plus-subscriber in either order, but a single id satisfying both
conditions also resolves, so the other id may be uninvolved. -/
theorem pair_resolution_characterization (rooms : List (RoomId × Room)) (a b : SocketId) :
    (∀ rid, findRoomForSocketPair rooms a b = some rid →
      ∃ room, (rid, room) ∈ rooms
        ∧ (room.teacherId = a ∨ room.teacherId = b)
        ∧ (a ∈ room.students ∨ b ∈ room.students))
    ∧ (findRoomForSocketPair rooms a b = none →
      ∀ rid room, (rid, room) ∈ rooms →
        ¬((room.teacherId = a ∨ room.teacherId = b)
          ∧ (a ∈ room.students ∨ b ∈ room.students))) := by
  induction rooms with
  | nil =>
    constructor
    · intro rid h
      simp [findRoomForSocketPair] at h
    · intro _ rid room hmem
      simp at hmem
  | cons q rest ih =>
    obtain ⟨r0, room0⟩ := q
    by_cases hc : (room0.teacherId = a ∨ room0.teacherId = b)
        ∧ (a ∈ room0.students ∨ b ∈ room0.students)
    · constructor
      · intro rid h
        simp only [findRoomForSocketPair, if_pos hc] at h
        injection h with h3
        subst h3
        exact ⟨room0, List.mem_cons_self _ _, hc⟩
      · intro h
        simp only [findRoomForSocketPair, if_pos hc] at h
        exact Option.noConfusion h
    · constructor
      · intro rid h
        simp only [findRoomForSocketPair, if_neg hc] at h
        obtain ⟨room, hmem, hc2⟩ := ih.1 rid h
        exact ⟨room, List.mem_cons_of_mem _ hmem, hc2⟩
      · intro h rid room hmem
        simp only [findRoomForSocketPair, if_neg hc] at h
        rcases List.mem_cons.mp hmem with heq | hmem2
        · cases heq
          exact hc
        · exact ih.2 h rid room hmem2

/-- Witness for C8 (amended): the resolved room of `c8Rooms` contains a
matching teacher and student. -/
theorem pair_resolution_characterization_witness :
    ∃ room, (("R" : RoomId), room) ∈ c8Rooms
      ∧ (room.teacherId = "A" ∨ room.teacherId = "B")
      ∧ ("A" ∈ room.students ∨ "B" ∈ room.students) :=
  (pair_resolution_characterization c8Rooms "A" "B").1 "R" (by decide)

end Signal
